import Mathlib

/-!
Formal model of the k4a_mkv2image frame-export pipeline
(src/k4a_mkv2image/kinect.cpp, kinect.hpp, main.cpp).

The program reads a recorded mkv capture file, fans the per-frame
sub-images (color, depth, infrared) out to per-modality concurrent
queues, and per-modality exporter threads drain the queues to numbered
image files.  The model below is a shallow embedding: buffers are lists
of pixel values, the concurrent queues are lists (single producer,
single consumer, FIFO), the exporter while-loops are fuel-indexed step
functions, and the thread interleaving before a process exit is
abstracted by the number of pops the consumer completed (the consumer
always removes a FIFO prefix, so a prefix is the exact reachable set).
-/

/-- A queue entry as pushed by kinect::update_color / update_depth /
update_infrared / update_transformation: a copied pixel buffer together
with the device timestamp of the source image.  Color buffers hold
uint8 values, depth and infrared buffers hold uint16 values; both are
modelled as lists of Nat. -/
structure QueueEntry where
  buffer : List Nat
  timestamp : Int
deriving DecidableEq

/-- One composite capture frame as delivered by playback.get_next_capture:
zero or one sub-image per modality, each with its buffer and device
timestamp. -/
structure Frame where
  color : Option QueueEntry
  depth : Option QueueEntry
  ir : Option QueueEntry
deriving DecidableEq

/-- Which tracks the recording declares (record_configuration.*_track_enabled);
initialize_save copies these into is_color / is_depth / is_infrared. -/
structure Tracks where
  color : Bool
  depth : Bool
  ir : Bool
deriving DecidableEq

/-- Resolution block of one camera inside the k4a calibration. -/
structure CameraCalibration where
  resolution_width : Int
  resolution_height : Int
deriving DecidableEq

/-- Calibration data read from the playback (only the fields the export
threads consult). -/
structure Calibration where
  color_camera_calibration : CameraCalibration
  depth_camera_calibration : CameraCalibration
deriving DecidableEq

/-- Option flags gathered by kinect::initialize_parameter.  quality is the
value stored in params next to IMWRITE_JPEG_QUALITY. -/
structure Config where
  is_scaling : Bool
  is_transform : Bool
  quality : Int
  is_show : Bool
deriving DecidableEq

/-- saturate_cast to uint8 of a real value, as performed by
cv::Mat::convertTo(..., CV_8U, alpha, beta): round to the nearest
integer and clamp into [0, 255].  Exact ties are rounded with Mathlib
round (half up); OpenCV computes in doubles and rounds half to even,
which agrees everywhere except at exact representable half-points. -/
def saturateCastU8 (v : ℚ) : Nat := (min 255 (max 0 (round v))).toNat

/-- Per-pixel depth rescale used by kinect::export_depth when is_scaling:
convertTo(CV_8U, -255.0 / 5000.0, 255.0), i.e. pixel * (-255/5000) + 255
saturate-cast to uint8. -/
def depthScalePixel (p : Nat) : Nat :=
  saturateCastU8 ((p : ℚ) * (-255 / 5000) + 255)

/-- Per-pixel infrared rescale used by kinect::export_infrared:
convertTo(CV_8U, 0.5), i.e. pixel * 0.5 saturate-cast to uint8. -/
def infraredScalePixel (p : Nat) : Nat :=
  saturateCastU8 ((p : ℚ) * (1 / 2))

/-- One output file as produced by an exporter thread: the modality
subdirectory, the sequence number (printf field 06d), the device
timestamp (printf field 011d), the payload actually handed to the write
call (verbatim bytes for color, converted raster for depth/infrared),
the raster dimensions the buffer is interpreted with (none for color,
whose bytes are written verbatim), the file extension, and the encode
quality parameter passed (some q only for infrared). -/
structure OutputFile where
  modality : String
  seq : Nat
  timestamp : Int
  payload : List Nat
  dims : Option (Int × Int)
  ext : String
  quality : Option Int
deriving DecidableEq

/-- State of one exporter thread between loop iterations: the remaining
queue contents (FIFO, front first), the local index counter, and the
files written so far. -/
structure ExporterState where
  queue : List QueueEntry
  index : Nat
  files : List OutputFile
deriving DecidableEq

/-- How a run of kinect::run terminates: either playback reports
end-of-stream, upon which update_frame calls std::exit(EXIT_SUCCESS)
directly, or the q key is pressed, upon which run returns and the
kinect destructor (finalize) stops and joins the exporter threads. -/
inductive TerminationMode where
  | eof
  | quitKey
deriving DecidableEq

/-- One iteration of the exporter while-loop shared by export_color,
export_depth and export_infrared: loop while not (is_quit and queue
empty); try_pop; on failure yield and retry; on success write one file
and increment the local index.  Returns none exactly when the loop
condition fails, i.e. the loop exits. -/
def exporter_iteration (write : QueueEntry → Nat → OutputFile) (is_quit : Bool)
    (s : ExporterState) : Option ExporterState :=
  if is_quit && s.queue.isEmpty then none
  else
    match s.queue with
    | [] => some s
    | e :: rest =>
        some { queue := rest, index := s.index + 1,
               files := s.files ++ [write e s.index] }

/-- Fuel-indexed run of the exporter loop.  The Bool result records
whether the loop exited through its condition within the given fuel. -/
def exporter_loop (write : QueueEntry → Nat → OutputFile) (is_quit : Bool) :
    Nat → ExporterState → ExporterState × Bool
  | 0, s => (s, false)
  | fuel + 1, s =>
      match exporter_iteration write is_quit s with
      | none => (s, true)
      | some s2 => exporter_loop write is_quit fuel s2

/-- Files produced by writing the given entries in order, numbering them
from i: the denotation of the exporter loop body applied down a list. -/
def enumWriteFrom (write : QueueEntry → Nat → OutputFile) :
    Nat → List QueueEntry → List OutputFile
  | _, [] => []
  | i, e :: rest => write e i :: enumWriteFrom write (i + 1) rest

/-- Entries a consumer has removed from its queue by process end: on the
quit-key path finalize sets is_quit and joins, so the thread drains the
whole queue; on the end-of-stream path std::exit kills the thread after
it completed only pops dequeue steps, a FIFO prefix of the queue. -/
def dequeuedEntries (mode : TerminationMode) (pops : Nat)
    (pushed : List QueueEntry) : List QueueEntry :=
  match mode with
  | .quitKey => pushed
  | .eof => pushed.take pops

/-- Files an exporter thread has written by process end, computed by
running the actual loop: with is_quit true and enough fuel to drain on
the quit-key path, and for exactly pops iterations with is_quit still
false on the end-of-stream path (std::exit terminates the process while
the loop is still running). -/
def writtenFiles (write : QueueEntry → Nat → OutputFile)
    (mode : TerminationMode) (pops : Nat) (pushed : List QueueEntry) :
    List OutputFile :=
  match mode with
  | .quitKey =>
      (exporter_loop write true (pushed.length + 1)
        { queue := pushed, index := 0, files := [] }).1.files
  | .eof =>
      (exporter_loop write false pops
        { queue := pushed, index := 0, files := [] }).1.files

/-- Timestamps of a file list, in the order written. -/
def timestampsOf (fs : List OutputFile) : List Int := fs.map (·.timestamp)

/-- Sequence numbers of a file list, in the order written. -/
def seqsOf (fs : List OutputFile) : List Nat := fs.map (·.seq)

/-- The three per-modality concurrent queues owned by the kinect object. -/
structure Queues where
  color : List QueueEntry
  depth : List QueueEntry
  infrared : List QueueEntry
deriving DecidableEq

/-- kinect::update_color: return early unless the color track is enabled;
return early if the capture has no color image; otherwise push a copy of
the buffer and the device timestamp onto the color queue. -/
def update_color (is_color : Bool) (f : Frame) (qs : Queues) : Queues :=
  if !is_color then qs
  else
    match f.color with
    | none => qs
    | some e => { qs with color := qs.color ++ [e] }

/-- kinect::update_depth: return early unless the depth track is enabled;
return early if the capture has no depth image; return early when
is_transform is set (the untransformed depth is not queued then);
otherwise push the buffer and device timestamp onto the depth queue. -/
def update_depth (is_depth is_transform : Bool) (f : Frame) (qs : Queues) : Queues :=
  if !is_depth then qs
  else
    match f.depth with
    | none => qs
    | some e => if is_transform then qs else { qs with depth := qs.depth ++ [e] }

/-- kinect::update_infrared: return early unless the infrared track is
enabled; return early if the capture has no infrared image; otherwise
push the buffer and device timestamp onto the infrared queue. -/
def update_infrared (is_infrared : Bool) (f : Frame) (qs : Queues) : Queues :=
  if !is_infrared then qs
  else
    match f.ir with
    | none => qs
    | some e => { qs with infrared := qs.infrared ++ [e] }

/-- kinect::update_transformation: return early if the depth_image member
holds no image (it was only assigned when the depth track is enabled and
the capture carried a depth image); otherwise run the collaborator
transform on the depth buffer and push the result, paired with the
ORIGINAL depth image device timestamp, onto the depth queue.  The source
contains no check between the transform call and the push: the transform
result is pushed even when it is empty.  (The guard on is_transform
inside the source function is dead code, since update only calls it when
is_transform is set.) -/
def update_transformation (transform : List Nat → List Nat)
    (depth_image : Option QueueEntry) (qs : Queues) : Queues :=
  match depth_image with
  | none => qs
  | some e => { qs with depth := qs.depth ++ [⟨transform e.buffer, e.timestamp⟩] }

/-- kinect::update for one frame, minus the playback read: run
update_color, update_depth, update_infrared, then update_transformation
when is_transform is set.  depth_image models the member variable, which
is only assigned when the depth track is enabled and the frame carries a
depth sub-image. -/
def update (tracks : Tracks) (is_transform : Bool)
    (transform : List Nat → List Nat) (f : Frame) (qs : Queues) : Queues :=
  let qs1 := update_color tracks.color f qs
  let qs2 := update_depth tracks.depth is_transform f qs1
  let qs3 := update_infrared tracks.ir f qs2
  let depth_image : Option QueueEntry := if tracks.depth then f.depth else none
  if is_transform then update_transformation transform depth_image qs3 else qs3

/-- Queue contents accumulated by the main loop after processing the given
frames in order, starting from empty queues. -/
def pushedQueues (tracks : Tracks) (is_transform : Bool)
    (transform : List Nat → List Nat) (frames : List Frame) : Queues :=
  frames.foldl (fun qs f => update tracks is_transform transform f qs)
    { color := [], depth := [], infrared := [] }

/-- Frames the main loop processes before it stops: all of them when the
stream runs out first, or the first k+1 when the q key arrives after
iteration k. -/
def processedFrames (frames : List Frame) (quitAfter : Option Nat) : List Frame :=
  match quitAfter with
  | none => frames
  | some k => if k < frames.length then frames.take (k + 1) else frames

/-- Which exit path the main loop takes for a given frame count and quit
keypress position. -/
def terminationMode (frameCount : Nat) (quitAfter : Option Nat) : TerminationMode :=
  match quitAfter with
  | none => .eof
  | some k => if k < frameCount then .quitKey else .eof

/-- kinect::export_color thread: drains the color queue writing each
bytes of each entry verbatim to color/%06d_%011d.jpg.  The bytes are the
already-compressed MJPG payload; no raster interpretation, no encode
parameters. -/
def export_color (mode : TerminationMode) (pops : Nat)
    (pushed : List QueueEntry) : List OutputFile :=
  writtenFiles
    (fun e i =>
      { modality := "color", seq := i, timestamp := e.timestamp,
        payload := e.buffer, dims := none, ext := "jpg", quality := none })
    mode pops pushed

/-- kinect::export_depth thread: computes width and height ONCE, before
the loop, from the immutable configuration (color camera calibration
when is_transform, else depth camera calibration), then drains the depth
queue writing each entry as a 16-bit raster of those dimensions to
depth/%06d_%011d.png, rescaled per pixel to 8 bits when is_scaling. -/
def export_depth (cal : Calibration) (is_transform is_scaling : Bool)
    (mode : TerminationMode) (pops : Nat)
    (pushed : List QueueEntry) : List OutputFile :=
  let width := if is_transform then cal.color_camera_calibration.resolution_width
               else cal.depth_camera_calibration.resolution_width
  let height := if is_transform then cal.color_camera_calibration.resolution_height
                else cal.depth_camera_calibration.resolution_height
  writtenFiles
    (fun e i =>
      { modality := "depth", seq := i, timestamp := e.timestamp,
        payload := if is_scaling then e.buffer.map depthScalePixel else e.buffer,
        dims := some (width, height), ext := "png", quality := none })
    mode pops pushed

/-- kinect::export_infrared thread: width and height come from the depth
camera calibration; every entry is rescaled per pixel to 8 bits and
written to infrared/%06d_%011d.jpg with the configured jpeg quality. -/
def export_infrared (cal : Calibration) (quality : Int)
    (mode : TerminationMode) (pops : Nat)
    (pushed : List QueueEntry) : List OutputFile :=
  let width := cal.depth_camera_calibration.resolution_width
  let height := cal.depth_camera_calibration.resolution_height
  writtenFiles
    (fun e i =>
      { modality := "infrared", seq := i, timestamp := e.timestamp,
        payload := e.buffer.map infraredScalePixel,
        dims := some (width, height), ext := "jpg", quality := some quality })
    mode pops pushed

/-- One image rendered by cv::imshow during the preview path (draw / show):
the window name and the pixel values shown. -/
structure DisplayedImage where
  window : String
  pixels : List Nat
deriving DecidableEq

/-- Preview output for one frame when is_show is set: the color image as
is; the depth image scaled (window depth), or when is_transform the
transformed depth scaled (window transformed depth); the infrared image
scaled.  Per the help text, display images are always scaled regardless
of the scaling flag. -/
def displayFrame (tracks : Tracks) (is_transform : Bool)
    (transform : List Nat → List Nat) (f : Frame) : List DisplayedImage :=
  (match (if tracks.color then f.color else none) with
   | none => []
   | some e => [{ window := "color", pixels := e.buffer }]) ++
  (match (if tracks.depth then f.depth else none) with
   | none => []
   | some e =>
       if is_transform then
         [{ window := "transformed depth",
            pixels := (transform e.buffer).map depthScalePixel }]
       else
         [{ window := "depth", pixels := e.buffer.map depthScalePixel }]) ++
  (match (if tracks.ir then f.ir else none) with
   | none => []
   | some e => [{ window := "infrared", pixels := e.buffer.map infraredScalePixel }])

/-- Observable outcome of one whole program run: the files each exporter
thread wrote, and the preview images rendered. -/
structure RunOutput where
  colorFiles : List OutputFile
  depthFiles : List OutputFile
  infraredFiles : List OutputFile
  displayed : List DisplayedImage
deriving DecidableEq

/-- Whole pipeline run.  frames is the recording content; quitAfter the
iteration after which the q key is seen, if any; colorPops, depthPops
and irPops are the schedule abstraction: how many dequeue steps each
exporter thread completed before a std::exit on end-of-stream kills it
(unused on the quit-key path, where finalize joins and drains).  An
exporter thread exists iff its track is enabled. -/
def systemRun (tracks : Tracks) (cal : Calibration) (cfg : Config)
    (transform : List Nat → List Nat) (frames : List Frame)
    (quitAfter : Option Nat) (colorPops depthPops irPops : Nat) : RunOutput :=
  let processed := processedFrames frames quitAfter
  let mode := terminationMode frames.length quitAfter
  let qs := pushedQueues tracks cfg.is_transform transform processed
  { colorFiles := if tracks.color then export_color mode colorPops qs.color else []
    depthFiles :=
      if tracks.depth then
        export_depth cal cfg.is_transform cfg.is_scaling mode depthPops qs.depth
      else []
    infraredFiles :=
      if tracks.ir then export_infrared cal cfg.quality mode irPops qs.infrared
      else []
    displayed :=
      if cfg.is_show then
        (processed.map (displayFrame tracks cfg.is_transform transform)).flatten
      else [] }

/-- Entries pushed per frame onto the color queue: the present color
sub-image, when the track is enabled. -/
def colorPushOf (tracks : Tracks) (f : Frame) : List QueueEntry :=
  if tracks.color then (f.color).toList else []

/-- Entries pushed per frame onto the depth queue: when the track is
enabled and a depth sub-image is present, the raw entry without
transform, and the transformed buffer with the original timestamp with
transform. -/
def depthPushOf (tracks : Tracks) (is_transform : Bool)
    (transform : List Nat → List Nat) (f : Frame) : List QueueEntry :=
  if tracks.depth then
    match f.depth with
    | none => []
    | some e =>
        if is_transform then [⟨transform e.buffer, e.timestamp⟩] else [e]
  else []

/-- Entries pushed per frame onto the infrared queue. -/
def irPushOf (tracks : Tracks) (f : Frame) : List QueueEntry :=
  if tracks.ir then (f.ir).toList else []

/-- Present color sub-images of a frame list, in emission order. -/
def presentColor (frames : List Frame) : List QueueEntry :=
  frames.filterMap (·.color)

/-- Present depth sub-images of a frame list, in emission order. -/
def presentDepth (frames : List Frame) : List QueueEntry :=
  frames.filterMap (·.depth)

/-- Present infrared sub-images of a frame list, in emission order. -/
def presentInfrared (frames : List Frame) : List QueueEntry :=
  frames.filterMap (·.ir)

/-- Input path facts consulted by initialize_parameter: whether the path
names a regular file, and its extension. -/
structure InputPath where
  is_regular_file : Bool
  extension : String
deriving DecidableEq

/-- Command line as seen through cv::CommandLineParser: whether help was
requested, whether parsing succeeded, and each optional flag (none when
the flag was not supplied). -/
structure Args where
  help : Bool
  parse_ok : Bool
  input : Option InputPath
  scaling : Option Bool
  transform : Option Bool
  quality : Option Int
  display : Option Bool

/-- Outcome of kinect::initialize_parameter: print usage and
std::exit(EXIT_SUCCESS) on help; throw std::runtime_error on a parse
error or a missing or invalid input file; otherwise the parsed
configuration. -/
inductive ParamResult where
  | helpExit
  | thrown (msg : String)
  | ok (cfg : Config)
deriving DecidableEq

/-- Jpeg quality as stored into params by initialize_parameter: 95 when
the flag is absent, otherwise std::min(std::max(0, q), 100). -/
def effective_quality (q : Option Int) : Int :=
  match q with
  | none => 95
  | some v => min (max 0 v) 100

/-- kinect::initialize_parameter.  Thrown message strings follow the
source (the source messages contain an apostrophe, omitted here). -/
def initialize_parameter (a : Args) : ParamResult :=
  if a.help then .helpExit
  else if a.parse_ok = false then .thrown "failed command arguments"
  else
    match a.input with
    | none => .thrown "failed cant find input mkv file"
    | some p =>
        if p.is_regular_file = false ∨ p.extension ≠ ".mkv" then
          .thrown "failed cant find input mkv file"
        else
          .ok { is_scaling := a.scaling.getD false,
                is_transform := a.transform.getD false,
                quality := effective_quality a.quality,
                is_show := a.display.getD false }

/-- Environment facts the later setup stages depend on: whether
k4a::playback::open succeeds, and whether each directory creation
succeeds. -/
structure SysEnv where
  open_ok : Bool
  create_root_ok : Bool
  create_sub_ok : String → Bool

/-- Sub-directory names created by initialize_save, in order, one per
enabled track. -/
def enabled_names (tracks : Tracks) : List String :=
  (if tracks.color then ["color"] else []) ++
  (if tracks.depth then ["depth"] else []) ++
  (if tracks.ir then ["infrared"] else [])

/-- Outcome of the kinect constructor (initialize): help exit, a thrown
setup error, or a fully started pipeline.  Exporter threads are started
by initialize_save only after every directory was created, so every
error path precedes any thread start. -/
inductive SetupResult where
  | helpExit
  | setupError (msg : String)
  | started (cfg : Config)
deriving DecidableEq

/-- kinect::initialize: initialize_parameter, then initialize_playback
(throws a k4a::error when the file vanished or open fails), then
initialize_save (throws when the root directory or any per-track sub
directory cannot be created; afterwards starts one exporter thread per
enabled track). -/
def kinect_setup (a : Args) (env : SysEnv) (tracks : Tracks) : SetupResult :=
  match initialize_parameter a with
  | .helpExit => .helpExit
  | .thrown msg => .setupError msg
  | .ok cfg =>
      if env.open_ok = false then .setupError "Failed to found file path"
      else if env.create_root_ok = false then
        .setupError "failed cant create root directory"
      else
        match (enabled_names tracks).find? (fun n => !env.create_sub_ok n) with
        | some n => .setupError ("failed cant create sub directory " ++ n)
        | none => .started cfg

/-- Observable process-level outcome of main: the exit code, whether an
error message was printed, and whether any exporter thread was started.
main wraps everything in try/catch blocks that print error.what() and
then fall through to return 0; the two std::exit calls (help, and
end-of-stream inside update_frame) both pass EXIT_SUCCESS.  Every path
therefore exits with code 0. -/
structure MainOutcome where
  exit_code : Nat
  error_printed : Bool
  exporter_threads_started : Bool
deriving DecidableEq

/-- Process outcome of running main with the given command line and
environment (mid-run behaviour after a successful setup is covered by
systemRun; every completion path of a started run also exits 0). -/
def mainOutcome (a : Args) (env : SysEnv) (tracks : Tracks) : MainOutcome :=
  match kinect_setup a env tracks with
  | .helpExit =>
      { exit_code := 0, error_printed := false, exporter_threads_started := false }
  | .setupError _ =>
      { exit_code := 0, error_printed := true, exporter_threads_started := false }
  | .started _ =>
      { exit_code := 0, error_printed := false, exporter_threads_started := true }

/-- One ofstream write performed by export_color, together with the
stream state the write left behind (stream_ok false means the write
failed and set badbit).  The source never inspects the stream, so the
state is recorded but has no effect on control flow. -/
structure ColorWriteRec where
  seq : Nat
  timestamp : Int
  bytes : List Nat
  stream_ok : Bool
deriving DecidableEq

/-- Sequence of ofstream writes export_color performs while draining the
given entries, when the environment makes write number i succeed iff
writeOk i.  Mirrors the loop body: open the file, write the bytes,
increment the index, continue — there is no test of the write result,
no retry and no early exit. -/
def export_color_writes (writeOk : Nat → Bool) :
    Nat → List QueueEntry → List ColorWriteRec
  | _, [] => []
  | i, e :: rest =>
      { seq := i, timestamp := e.timestamp, bytes := e.buffer,
        stream_ok := writeOk i } :: export_color_writes writeOk (i + 1) rest

/-- Content of one write attempt, with the stream state erased. -/
def write_content (r : ColorWriteRec) : Nat × Int × List Nat :=
  (r.seq, r.timestamp, r.bytes)

/-- One cv::imwrite call performed by export_depth, together with the
Bool return value the source discards (imwrite_ok false means the
encode or write failed).  The raster and dimensions are the ones the
loop hands to cv::imwrite: the loop-constant width and height chosen at
thread start, and the optionally rescaled buffer. -/
structure DepthWriteRec where
  seq : Nat
  timestamp : Int
  raster : List Nat
  dims : Int × Int
  imwrite_ok : Bool
deriving DecidableEq

/-- Sequence of cv::imwrite calls export_depth performs while draining
the given entries, when the environment makes write number i succeed
iff writeOk i.  Mirrors the loop body: build the Mat with the
loop-constant dimensions (constant because is_transform and the
calibration are immutable), optionally rescale, call cv::imwrite,
increment the index, continue — the returned Bool is discarded, so
there is no test of the write result, no retry and no early exit. -/
def export_depth_writes (cal : Calibration) (is_transform is_scaling : Bool)
    (writeOk : Nat → Bool) : Nat → List QueueEntry → List DepthWriteRec
  | _, [] => []
  | i, e :: rest =>
      { seq := i, timestamp := e.timestamp,
        raster := if is_scaling then e.buffer.map depthScalePixel else e.buffer,
        dims := (if is_transform then cal.color_camera_calibration.resolution_width
                 else cal.depth_camera_calibration.resolution_width,
                 if is_transform then cal.color_camera_calibration.resolution_height
                 else cal.depth_camera_calibration.resolution_height),
        imwrite_ok := writeOk i } ::
        export_depth_writes cal is_transform is_scaling writeOk (i + 1) rest

/-- One cv::imwrite call performed by export_infrared, together with the
Bool return value the source discards. -/
structure InfraredWriteRec where
  seq : Nat
  timestamp : Int
  raster : List Nat
  dims : Int × Int
  quality : Int
  imwrite_ok : Bool
deriving DecidableEq

/-- Sequence of cv::imwrite calls export_infrared performs while
draining the given entries: build the Mat with the depth camera
resolution, rescale to 8 bit, call cv::imwrite with the configured jpeg
quality, discard the returned Bool, increment the index, continue. -/
def export_infrared_writes (cal : Calibration) (quality : Int)
    (writeOk : Nat → Bool) : Nat → List QueueEntry → List InfraredWriteRec
  | _, [] => []
  | i, e :: rest =>
      { seq := i, timestamp := e.timestamp,
        raster := e.buffer.map infraredScalePixel,
        dims := (cal.depth_camera_calibration.resolution_width,
                 cal.depth_camera_calibration.resolution_height),
        quality := quality, imwrite_ok := writeOk i } ::
        export_infrared_writes cal quality writeOk (i + 1) rest

/-- Content of one depth write attempt, with the discarded imwrite
status erased. -/
def depth_write_content (r : DepthWriteRec) : Nat × Int × List Nat × (Int × Int) :=
  (r.seq, r.timestamp, r.raster, r.dims)

/-- Content of one infrared write attempt, with the discarded imwrite
status erased. -/
def infrared_write_content (r : InfraredWriteRec) :
    Nat × Int × List Nat × (Int × Int) × Int :=
  (r.seq, r.timestamp, r.raster, r.dims, r.quality)

/-- Concrete calibration used by witnesses: 1920x1080 color camera,
640x576 depth camera. -/
def cal0 : Calibration :=
  { color_camera_calibration := { resolution_width := 1920, resolution_height := 1080 },
    depth_camera_calibration := { resolution_width := 640, resolution_height := 576 } }

/-- Default configuration: every flag off, quality 95. -/
def cfg0 : Config :=
  { is_scaling := false, is_transform := false, quality := 95, is_show := false }

/-- Configuration with only the transform flag enabled. -/
def cfgTransform : Config :=
  { is_scaling := false, is_transform := true, quality := 95, is_show := false }

/-- Recording that declares only a color track. -/
def tracksColorOnly : Tracks := { color := true, depth := false, ir := false }

/-- Recording that declares only a depth track. -/
def tracksDepthOnly : Tracks := { color := false, depth := true, ir := false }

/-- Recording that declares all three tracks. -/
def tracksAll : Tracks := { color := true, depth := true, ir := true }

/-- Collaborator transform that produces no output (empty buffer) for
every input, modelling a frame for which the depth-to-color transform
yields nothing. -/
def emptyTransform : List Nat → List Nat := fun _ => []

/-- Frame carrying only a color sub-image. -/
def frameColor1 : Frame :=
  { color := some { buffer := [9, 9], timestamp := 100 }, depth := none, ir := none }

/-- Frame carrying only a depth sub-image. -/
def frameDepth1 : Frame :=
  { color := none, depth := some { buffer := [5], timestamp := 10 }, ir := none }

/-- Two-frame color recording with non-decreasing timestamps 5, 7. -/
def frames57 : List Frame :=
  [ { color := some { buffer := [1], timestamp := 5 }, depth := none, ir := none },
    { color := some { buffer := [2], timestamp := 7 }, depth := none, ir := none } ]

/-- Command line lacking the required input flag. -/
def argsMissingInput : Args :=
  { help := false, parse_ok := true, input := none, scaling := none,
    transform := none, quality := none, display := none }

/-- Command line with a valid input file and quality 150. -/
def args150 : Args :=
  { help := false, parse_ok := true,
    input := some { is_regular_file := true, extension := ".mkv" },
    scaling := none, transform := none, quality := some 150, display := none }

/-- Configuration that args150 parses to: quality clamped to 100. -/
def cfg150 : Config :=
  { is_scaling := false, is_transform := false, quality := 100, is_show := false }

/-- Benign environment: open succeeds and every directory creation
succeeds. -/
def env0 : SysEnv :=
  { open_ok := true, create_root_ok := true, create_sub_ok := fun _ => true }

/-- Write oracle under which the very first write fails and all others
succeed. -/
def failFirstWrite : Nat → Bool := fun i => decide (0 < i)

/-- Two color entries to drain. -/
def colorEntries2 : List QueueEntry :=
  [ { buffer := [1], timestamp := 5 }, { buffer := [2], timestamp := 6 } ]

/-- Depth file written for a single raw entry under cal0 without
transform: dimensions come from the depth camera calibration. -/
def depthFile0 : OutputFile :=
  { modality := "depth", seq := 0, timestamp := 10, payload := [5],
    dims := some (640, 576), ext := "png", quality := none }

theorem exporter_iteration_exits_iff (write : QueueEntry → Nat → OutputFile)
    (is_quit : Bool) (s : ExporterState) :
    exporter_iteration write is_quit s = none ↔
      is_quit = true ∧ s.queue = [] := by
  unfold exporter_iteration
  rcases s with ⟨q, i, fs⟩
  cases is_quit <;> cases q <;> simp [List.isEmpty]

theorem enumWriteFrom_nil (write : QueueEntry → Nat → OutputFile) (i : Nat) :
    enumWriteFrom write i [] = [] := rfl

theorem enumWriteFrom_cons (write : QueueEntry → Nat → OutputFile) (i : Nat)
    (e : QueueEntry) (rest : List QueueEntry) :
    enumWriteFrom write i (e :: rest) =
      write e i :: enumWriteFrom write (i + 1) rest := rfl

theorem length_enumWriteFrom (write : QueueEntry → Nat → OutputFile) :
    ∀ (l : List QueueEntry) (i : Nat), (enumWriteFrom write i l).length = l.length := by
  intro l
  induction l with
  | nil => intro i; rfl
  | cons e rest ih =>
      intro i
      simp [enumWriteFrom, ih]

/-- Running the loop with is_quit set and fuel one more than the queue
length drains the queue completely: every queued entry is written, in
FIFO order, and the loop exits through its condition. -/
theorem exporter_loop_drains (write : QueueEntry → Nat → OutputFile) :
    ∀ (q : List QueueEntry) (i : Nat) (fs : List OutputFile),
    exporter_loop write true (q.length + 1) { queue := q, index := i, files := fs } =
      ({ queue := [], index := i + q.length, files := fs ++ enumWriteFrom write i q }, true) := by
  intro q
  induction q with
  | nil =>
      intro i fs
      simp [exporter_loop, exporter_iteration, enumWriteFrom]
  | cons e rest ih =>
      intro i fs
      have step : exporter_iteration write true { queue := e :: rest, index := i, files := fs } =
          some { queue := rest, index := i + 1, files := fs ++ [write e i] } := by
        simp [exporter_iteration, List.isEmpty]
      calc exporter_loop write true ((e :: rest).length + 1)
              { queue := e :: rest, index := i, files := fs }
          = exporter_loop write true (rest.length + 1)
              { queue := rest, index := i + 1, files := fs ++ [write e i] } := by
            simp only [List.length_cons]
            rw [exporter_loop, step]
        _ = ({ queue := [], index := i + 1 + rest.length,
               files := (fs ++ [write e i]) ++ enumWriteFrom write (i + 1) rest }, true) := ih (i + 1) (fs ++ [write e i])
        _ = ({ queue := [], index := i + (e :: rest).length,
               files := fs ++ enumWriteFrom write i (e :: rest) }, true) := by
            simp [enumWriteFrom, List.append_assoc, Nat.add_comm, Nat.add_assoc, Nat.add_left_comm]

/-- Running the loop with is_quit still false for a given number of
iterations writes exactly the first min(fuel, length) queued entries,
in FIFO order, and the loop has not exited. -/
theorem exporter_loop_running (write : QueueEntry → Nat → OutputFile) :
    ∀ (fuel : Nat) (q : List QueueEntry) (i : Nat) (fs : List OutputFile),
    exporter_loop write false fuel { queue := q, index := i, files := fs } =
      ({ queue := q.drop fuel, index := i + min fuel q.length,
         files := fs ++ enumWriteFrom write i (q.take fuel) }, false) := by
  intro fuel
  induction fuel with
  | zero =>
      intro q i fs
      simp [exporter_loop, enumWriteFrom]
  | succ n ih =>
      intro q i fs
      cases q with
      | nil =>
          have step : exporter_iteration write false { queue := ([] : List QueueEntry), index := i, files := fs } =
              some { queue := [], index := i, files := fs } := by
            simp [exporter_iteration, List.isEmpty]
          rw [exporter_loop, step]
          show exporter_loop write false n { queue := [], index := i, files := fs } = _
          rw [ih]
          simp [enumWriteFrom]
      | cons e rest =>
          have step : exporter_iteration write false { queue := e :: rest, index := i, files := fs } =
              some { queue := rest, index := i + 1, files := fs ++ [write e i] } := by
            simp [exporter_iteration, List.isEmpty]
          rw [exporter_loop, step]
          show exporter_loop write false n
              { queue := rest, index := i + 1, files := fs ++ [write e i] } = _
          rw [ih]
          simp [enumWriteFrom, List.append_assoc, Nat.succ_min_succ,
            Nat.add_comm, Nat.add_assoc, Nat.add_left_comm]

/-- The files present at process end are exactly the dequeued entries
written in order, numbered from 0. -/
theorem writtenFiles_eq (write : QueueEntry → Nat → OutputFile)
    (mode : TerminationMode) (pops : Nat) (pushed : List QueueEntry) :
    writtenFiles write mode pops pushed =
      enumWriteFrom write 0 (dequeuedEntries mode pops pushed) := by
  cases mode with
  | quitKey =>
      simp [writtenFiles, dequeuedEntries, exporter_loop_drains]
  | eof =>
      simp [writtenFiles, dequeuedEntries, exporter_loop_running]

theorem update_color_color (c : Bool) (f : Frame) (qs : Queues) :
    (update_color c f qs).color = qs.color ++ colorPushOf { color := c, depth := false, ir := false } f := by
  unfold update_color colorPushOf
  cases c <;> cases h : f.color <;> simp [h, Option.toList]

theorem update_color_depth (c : Bool) (f : Frame) (qs : Queues) :
    (update_color c f qs).depth = qs.depth := by
  unfold update_color
  cases c <;> cases h : f.color <;> simp [h]

theorem update_color_infrared (c : Bool) (f : Frame) (qs : Queues) :
    (update_color c f qs).infrared = qs.infrared := by
  unfold update_color
  cases c <;> cases h : f.color <;> simp [h]

theorem update_depth_color (d it : Bool) (f : Frame) (qs : Queues) :
    (update_depth d it f qs).color = qs.color := by
  unfold update_depth
  cases d <;> cases h : f.depth <;> cases it <;> simp [h]

theorem update_depth_depth (d it : Bool) (f : Frame) (qs : Queues) :
    (update_depth d it f qs).depth =
      qs.depth ++ (if d then
        match f.depth with
        | none => []
        | some e => if it then [] else [e]
      else []) := by
  unfold update_depth
  cases d <;> cases h : f.depth <;> cases it <;> simp [h]

theorem update_depth_infrared (d it : Bool) (f : Frame) (qs : Queues) :
    (update_depth d it f qs).infrared = qs.infrared := by
  unfold update_depth
  cases d <;> cases h : f.depth <;> cases it <;> simp [h]

theorem update_infrared_color (ir : Bool) (f : Frame) (qs : Queues) :
    (update_infrared ir f qs).color = qs.color := by
  unfold update_infrared
  cases ir <;> cases h : f.ir <;> simp [h]

theorem update_infrared_depth (ir : Bool) (f : Frame) (qs : Queues) :
    (update_infrared ir f qs).depth = qs.depth := by
  unfold update_infrared
  cases ir <;> cases h : f.ir <;> simp [h]

theorem update_infrared_infrared (ir : Bool) (f : Frame) (qs : Queues) :
    (update_infrared ir f qs).infrared = qs.infrared ++ irPushOf { color := false, depth := false, ir := ir } f := by
  unfold update_infrared irPushOf
  cases ir <;> cases h : f.ir <;> simp [h, Option.toList]

theorem update_transformation_color (tr : List Nat → List Nat)
    (di : Option QueueEntry) (qs : Queues) :
    (update_transformation tr di qs).color = qs.color := by
  unfold update_transformation
  cases di <;> simp

theorem update_transformation_infrared (tr : List Nat → List Nat)
    (di : Option QueueEntry) (qs : Queues) :
    (update_transformation tr di qs).infrared = qs.infrared := by
  unfold update_transformation
  cases di <;> simp

theorem update_transformation_depth (tr : List Nat → List Nat)
    (di : Option QueueEntry) (qs : Queues) :
    (update_transformation tr di qs).depth =
      qs.depth ++ (match di with
        | none => []
        | some e => [⟨tr e.buffer, e.timestamp⟩]) := by
  unfold update_transformation
  cases di <;> simp

/-- Per-frame effect of update on the color queue. -/
theorem update_color_eq (tracks : Tracks) (it : Bool)
    (tr : List Nat → List Nat) (f : Frame) (qs : Queues) :
    (update tracks it tr f qs).color = qs.color ++ colorPushOf tracks f := by
  unfold update
  cases it <;>
    simp [update_transformation_color, update_infrared_color, update_depth_color,
      update_color_color, colorPushOf]

/-- Per-frame effect of update on the infrared queue. -/
theorem update_infrared_eq (tracks : Tracks) (it : Bool)
    (tr : List Nat → List Nat) (f : Frame) (qs : Queues) :
    (update tracks it tr f qs).infrared = qs.infrared ++ irPushOf tracks f := by
  unfold update
  cases it <;>
    simp [update_transformation_infrared, update_infrared_infrared,
      update_depth_infrared, update_color_infrared, irPushOf]

/-- Per-frame effect of update on the depth queue: without transform the
raw present depth entry, with transform the transformed buffer paired
with the original timestamp. -/
theorem update_depth_eq (tracks : Tracks) (it : Bool)
    (tr : List Nat → List Nat) (f : Frame) (qs : Queues) :
    (update tracks it tr f qs).depth = qs.depth ++ depthPushOf tracks it tr f := by
  unfold update
  cases it with
  | false =>
      simp only [Bool.false_eq_true, if_false]
      rw [update_infrared_depth, update_depth_depth, update_color_depth]
      unfold depthPushOf
      cases hd : tracks.depth <;> cases h : f.depth <;> simp [h]
  | true =>
      simp only [if_true]
      rw [update_transformation_depth, update_infrared_depth, update_depth_depth,
        update_color_depth]
      unfold depthPushOf
      cases hd : tracks.depth <;> cases h : f.depth <;> simp [h, hd]

/-- Folding update over a frame list appends, per modality, the per-frame
push lists in order. -/
theorem foldl_update_color (tracks : Tracks) (it : Bool)
    (tr : List Nat → List Nat) :
    ∀ (frames : List Frame) (qs : Queues),
    (frames.foldl (fun qs f => update tracks it tr f qs) qs).color =
      qs.color ++ (frames.map (colorPushOf tracks)).flatten := by
  intro frames
  induction frames with
  | nil => intro qs; simp
  | cons f rest ih =>
      intro qs
      simp only [List.foldl_cons, List.map_cons, List.flatten_cons]
      rw [ih, update_color_eq, List.append_assoc]

theorem foldl_update_depth (tracks : Tracks) (it : Bool)
    (tr : List Nat → List Nat) :
    ∀ (frames : List Frame) (qs : Queues),
    (frames.foldl (fun qs f => update tracks it tr f qs) qs).depth =
      qs.depth ++ (frames.map (depthPushOf tracks it tr)).flatten := by
  intro frames
  induction frames with
  | nil => intro qs; simp
  | cons f rest ih =>
      intro qs
      simp only [List.foldl_cons, List.map_cons, List.flatten_cons]
      rw [ih, update_depth_eq, List.append_assoc]

theorem foldl_update_infrared (tracks : Tracks) (it : Bool)
    (tr : List Nat → List Nat) :
    ∀ (frames : List Frame) (qs : Queues),
    (frames.foldl (fun qs f => update tracks it tr f qs) qs).infrared =
      qs.infrared ++ (frames.map (irPushOf tracks)).flatten := by
  intro frames
  induction frames with
  | nil => intro qs; simp
  | cons f rest ih =>
      intro qs
      simp only [List.foldl_cons, List.map_cons, List.flatten_cons]
      rw [ih, update_infrared_eq, List.append_assoc]

/-- Queue contents after a run: the color queue receives exactly the
present color sub-images, in emission order, when the track is enabled. -/
theorem pushedQueues_color (tracks : Tracks) (it : Bool)
    (tr : List Nat → List Nat) (frames : List Frame) :
    (pushedQueues tracks it tr frames).color =
      if tracks.color then presentColor frames else [] := by
  unfold pushedQueues
  rw [foldl_update_color]
  cases hc : tracks.color with
  | true =>
      simp only [if_true, List.nil_append]
      induction frames with
      | nil => simp [presentColor]
      | cons f rest ih =>
          simp only [List.map_cons, List.flatten_cons, presentColor, List.filterMap_cons]
          cases h : f.color <;>
            simp [colorPushOf, hc, h, Option.toList, ih, presentColor]
  | false =>
      simp only [Bool.false_eq_true, if_false, List.nil_append]
      induction frames with
      | nil => simp
      | cons f rest ih => simp [colorPushOf, hc, ih]

/-- Queue contents after a run: the infrared queue receives exactly the
present infrared sub-images, in emission order, when the track is
enabled. -/
theorem pushedQueues_infrared (tracks : Tracks) (it : Bool)
    (tr : List Nat → List Nat) (frames : List Frame) :
    (pushedQueues tracks it tr frames).infrared =
      if tracks.ir then presentInfrared frames else [] := by
  unfold pushedQueues
  rw [foldl_update_infrared]
  cases hc : tracks.ir with
  | true =>
      simp only [if_true, List.nil_append]
      induction frames with
      | nil => simp [presentInfrared]
      | cons f rest ih =>
          simp only [List.map_cons, List.flatten_cons, presentInfrared, List.filterMap_cons]
          cases h : f.ir <;>
            simp [irPushOf, hc, h, Option.toList, ih, presentInfrared]
  | false =>
      simp only [Bool.false_eq_true, if_false, List.nil_append]
      induction frames with
      | nil => simp
      | cons f rest ih => simp [irPushOf, hc, ih]

/-- Queue contents after a run: when the depth track is enabled the depth
queue receives, per present depth sub-image in emission order, the raw
entry (transform off) or the transformed buffer with the original
timestamp (transform on — including empty transform results). -/
theorem pushedQueues_depth (tracks : Tracks) (it : Bool)
    (tr : List Nat → List Nat) (frames : List Frame) :
    (pushedQueues tracks it tr frames).depth =
      if tracks.depth then
        (if it then
          (presentDepth frames).map (fun e => ⟨tr e.buffer, e.timestamp⟩)
        else presentDepth frames)
      else [] := by
  unfold pushedQueues
  rw [foldl_update_depth]
  cases hd : tracks.depth with
  | true =>
      simp only [if_true, List.nil_append]
      induction frames with
      | nil => cases it <;> simp [presentDepth]
      | cons f rest ih =>
          simp only [List.map_cons, List.flatten_cons, presentDepth, List.filterMap_cons]
          cases h : f.depth <;> cases it <;>
            simp_all [depthPushOf, hd, h, presentDepth]
  | false =>
      simp only [Bool.false_eq_true, if_false, List.nil_append]
      induction frames with
      | nil => simp
      | cons f rest ih => simp [depthPushOf, hd, ih]

/-- Projection of the numbered writes through any field that ignores the
index and depends on the entry alone. -/
theorem map_enumWriteFrom {α : Type} (write : QueueEntry → Nat → OutputFile)
    (g : OutputFile → α) (g0 : QueueEntry → α)
    (h : ∀ e i, g (write e i) = g0 e) :
    ∀ (l : List QueueEntry) (i : Nat),
    (enumWriteFrom write i l).map g = l.map g0 := by
  intro l
  induction l with
  | nil => intro i; rfl
  | cons e rest ih =>
      intro i
      simp [enumWriteFrom, h, ih]

/-- Sequence numbers of the numbered writes count up from the start
index, provided the write stores the index as the sequence number. -/
theorem seqs_enumWriteFrom (write : QueueEntry → Nat → OutputFile)
    (h : ∀ e i, (write e i).seq = i) :
    ∀ (l : List QueueEntry) (i : Nat),
    (enumWriteFrom write i l).map (·.seq) = List.range' i l.length := by
  intro l
  induction l with
  | nil => intro i; rfl
  | cons e rest ih =>
      intro i
      simp [enumWriteFrom, h, ih, List.range']

/-- Every file among the numbered writes is the write of some entry of
the list. -/
theorem mem_enumWriteFrom (write : QueueEntry → Nat → OutputFile) :
    ∀ (l : List QueueEntry) (i : Nat) (f : OutputFile),
    f ∈ enumWriteFrom write i l → ∃ e j, e ∈ l ∧ f = write e j := by
  intro l
  induction l with
  | nil => intro i f hf; simp [enumWriteFrom] at hf
  | cons e rest ih =>
      intro i f hf
      simp only [enumWriteFrom, List.mem_cons] at hf
      cases hf with
      | inl h => exact ⟨e, i, List.mem_cons_self e rest, h⟩
      | inr h =>
          obtain ⟨e2, j, he2, hfe⟩ := ih (i + 1) f h
          exact ⟨e2, j, List.mem_cons_of_mem e he2, hfe⟩

/-- Counting a filterMap equals counting the elements on which the
function is some. -/
theorem length_filterMap_isSome {α β : Type} (g : α → Option β) :
    ∀ (l : List α),
    (l.filterMap g).length = (l.filter (fun x => (g x).isSome)).length := by
  intro l
  induction l with
  | nil => rfl
  | cons x rest ih =>
      simp only [List.filterMap_cons, List.filter_cons]
      cases h : g x <;> simp [h, ih]

/-- C1: at the failing input — a recording with a single color frame and
no quit keypress — the run ends by end-of-stream: update_frame calls
std::exit(EXIT_SUCCESS) directly, the kinect destructor (finalize: set
is_quit, join) never runs, and with the exporter thread having completed
no pop before the exit, the entry pushed onto the color queue is never
written.  The same input terminated through the quit key instead (last
conjunct) drains the queue and writes the file, showing the loss is
specific to the end-of-stream exit path. -/
theorem c1_eof_loses_queued_entry :
    (systemRun tracksColorOnly cal0 cfg0 (fun b => b) [frameColor1] none 0 0 0).colorFiles = [] ∧
    (pushedQueues tracksColorOnly false (fun b => b) [frameColor1]).color.length = 1 ∧
    terminationMode [frameColor1].length none = TerminationMode.eof ∧
    (systemRun tracksColorOnly cal0 cfg0 (fun b => b) [frameColor1] (some 0) 0 0 0).colorFiles.length = 1 := by
  decide

/-- C2 counterexample: a command line missing the required input flag is
a setup error — a message is printed and no exporter thread starts —
yet the process exit code is 0, because main catches the exception,
prints it and returns 0.  This contradicts the claim that the exit code
is non-zero on setup errors and 0 only on normal completion or help. -/
theorem c2_counterexample :
    kinect_setup argsMissingInput env0 tracksAll =
      SetupResult.setupError "failed cant find input mkv file" ∧
    (mainOutcome argsMissingInput env0 tracksAll).exit_code = 0 ∧
    (mainOutcome argsMissingInput env0 tracksAll).error_printed = true :=
  ⟨rfl, rfl, rfl⟩

/-- C2 amended: on any setup error (bad arguments, missing or invalid
input file, open failure, directory-creation failure) the process
prints a message and terminates before any exporter thread starts, but
its exit status is 0 like on every other path — main catches the
exception and returns 0. -/
theorem c2_amended (a : Args) (env : SysEnv) (tracks : Tracks) (msg : String)
    (h : kinect_setup a env tracks = SetupResult.setupError msg) :
    (mainOutcome a env tracks).error_printed = true ∧
    (mainOutcome a env tracks).exporter_threads_started = false ∧
    (mainOutcome a env tracks).exit_code = 0 := by
  unfold mainOutcome
  rw [h]
  exact ⟨rfl, rfl, rfl⟩

/-- Witness for C2 amended at the concrete missing-input command line. -/
theorem c2_amended_witness :
    kinect_setup argsMissingInput env0 tracksAll =
      SetupResult.setupError "failed cant find input mkv file" ∧
    ((mainOutcome argsMissingInput env0 tracksAll).error_printed = true ∧
     (mainOutcome argsMissingInput env0 tracksAll).exporter_threads_started = false ∧
     (mainOutcome argsMissingInput env0 tracksAll).exit_code = 0) :=
  ⟨rfl, c2_amended argsMissingInput env0 tracksAll _ rfl⟩

/-- C3 counterexample: with the first ofstream write failing, export_color
still writes the second entry and runs to completion — two write
attempts happen, the second with the correct bytes — so a per-item write
failure does not propagate and does not terminate the process. -/
theorem c3_counterexample :
    failFirstWrite 0 = false ∧
    (export_color_writes failFirstWrite 0 colorEntries2).length = 2 ∧
    (export_color_writes failFirstWrite 0 colorEntries2).map (·.bytes) = [[1], [2]] :=
  ⟨rfl, rfl, rfl⟩

/-- C3 amended: no exporter examines the result of its write —
export_color discards the ofstream state, and export_depth and
export_infrared discard the cv::imwrite return value — so for each of
the three modalities the sequence of write attempts (index, timestamp,
written content) is identical under any two patterns of write failures,
and every dequeued entry receives exactly one write attempt: no retry,
no skip, and no abort on failure. -/
theorem c3_amended (w1 w2 : Nat → Bool) (cal : Calibration)
    (it sc : Bool) (q : Int) :
    ∀ (l : List QueueEntry) (i : Nat),
    ((export_color_writes w1 i l).map write_content =
       (export_color_writes w2 i l).map write_content ∧
     (export_color_writes w1 i l).length = l.length) ∧
    ((export_depth_writes cal it sc w1 i l).map depth_write_content =
       (export_depth_writes cal it sc w2 i l).map depth_write_content ∧
     (export_depth_writes cal it sc w1 i l).length = l.length) ∧
    ((export_infrared_writes cal q w1 i l).map infrared_write_content =
       (export_infrared_writes cal q w2 i l).map infrared_write_content ∧
     (export_infrared_writes cal q w1 i l).length = l.length) := by
  intro l
  induction l with
  | nil => intro i; exact ⟨⟨rfl, rfl⟩, ⟨rfl, rfl⟩, ⟨rfl, rfl⟩⟩
  | cons e rest ih =>
      intro i
      refine ⟨⟨?_, ?_⟩, ⟨?_, ?_⟩, ⟨?_, ?_⟩⟩
      · simp only [export_color_writes, List.map_cons]
        rw [((ih (i + 1)).1).1]
        simp [write_content]
      · simp [export_color_writes, ((ih (i + 1)).1).2]
      · simp only [export_depth_writes, List.map_cons]
        rw [((ih (i + 1)).2.1).1]
        simp [depth_write_content]
      · simp [export_depth_writes, ((ih (i + 1)).2.1).2]
      · simp only [export_infrared_writes, List.map_cons]
        rw [((ih (i + 1)).2.2).1]
        simp [infrared_write_content]
      · simp [export_infrared_writes, ((ih (i + 1)).2.2).2]

/-- C6 counterexample: transform enabled, a frame with a present depth
sub-image, and a transform that produces no output (empty buffer): an
entry IS pushed onto the depth queue — the empty transform result with
the original depth timestamp — contradicting that nothing is queued for
that frame. -/
theorem c6_counterexample :
    (update tracksDepthOnly true emptyTransform frameDepth1
      { color := [], depth := [], infrared := [] }).depth =
      [{ buffer := [], timestamp := 10 }] := by
  decide

/-- C6 amended: with transform enabled, for every frame with a present
depth sub-image exactly the transform result is enqueued, paired with
the original depth timestamp; the untransformed buffer serves only as
the transform input and is itself never queued; and the push happens
unconditionally — even when the transform result is empty, since no
emptiness check exists between the transform call and the push. -/
theorem c6_amended (tracks : Tracks) (transform : List Nat → List Nat)
    (f : Frame) (qs : Queues) (e : QueueEntry)
    (ht : tracks.depth = true) (hd : f.depth = some e) :
    (update tracks true transform f qs).depth =
      qs.depth ++ [⟨transform e.buffer, e.timestamp⟩] := by
  rw [update_depth_eq]
  unfold depthPushOf
  simp [ht, hd]

/-- Witness for C6 amended at the concrete empty-output transform. -/
theorem c6_amended_witness :
    tracksDepthOnly.depth = true ∧
    frameDepth1.depth = some { buffer := [5], timestamp := 10 } ∧
    (update tracksDepthOnly true emptyTransform frameDepth1
      { color := [], depth := [], infrared := [] }).depth =
      [] ++ [⟨emptyTransform [5], 10⟩] :=
  ⟨rfl, rfl, c6_amended tracksDepthOnly emptyTransform frameDepth1 _ _ rfl rfl⟩

/-- C7: for every dequeued depth entry, the payload written is the buffer
mapped pixelwise through the affine rescale pixel * (-255/5000) + 255
(saturate-cast to uint8) when the scaling flag is enabled, and the raw
unmodified 16-bit buffer when it is disabled. -/
theorem c7_depth_payload (cal : Calibration) (it sc : Bool)
    (mode : TerminationMode) (pops : Nat) (pushed : List QueueEntry) :
    (export_depth cal it sc mode pops pushed).map (·.payload) =
      (dequeuedEntries mode pops pushed).map
        (fun e => if sc then
          e.buffer.map (fun (p : Nat) => saturateCastU8 ((p : ℚ) * (-255 / 5000) + 255))
        else e.buffer) := by
  unfold export_depth
  rw [writtenFiles_eq]
  exact map_enumWriteFrom _ (·.payload)
    (fun e => if sc then
      e.buffer.map (fun (p : Nat) => saturateCastU8 ((p : ℚ) * (-255 / 5000) + 255))
    else e.buffer)
    (fun e i => rfl) (dequeuedEntries mode pops pushed) 0

/-- C8: the files written — names, payloads, everything — are identical
whether the preview flag is on or off, for every recording,
configuration, transform, quit position and exporter schedule: the
queues are filled before the draw/show path runs, and the preview path
never feeds back into the queues or the exporters. -/
theorem c8_preview_independence (tracks : Tracks) (cal : Calibration)
    (cfg : Config) (transform : List Nat → List Nat) (frames : List Frame)
    (quitAfter : Option Nat) (cp dp ip : Nat) :
    (systemRun tracks cal { cfg with is_show := true } transform frames quitAfter cp dp ip).colorFiles =
      (systemRun tracks cal { cfg with is_show := false } transform frames quitAfter cp dp ip).colorFiles ∧
    (systemRun tracks cal { cfg with is_show := true } transform frames quitAfter cp dp ip).depthFiles =
      (systemRun tracks cal { cfg with is_show := false } transform frames quitAfter cp dp ip).depthFiles ∧
    (systemRun tracks cal { cfg with is_show := true } transform frames quitAfter cp dp ip).infraredFiles =
      (systemRun tracks cal { cfg with is_show := false } transform frames quitAfter cp dp ip).infraredFiles :=
  ⟨rfl, rfl, rfl⟩

/-- C10: every file export_depth writes carries the dimensions chosen
once at thread start from the immutable configuration: the color camera
calibration resolution when the transform flag is enabled, the depth
camera calibration resolution otherwise — the same for every entry the
thread dequeues. -/
theorem c10_depth_dims (cal : Calibration) (it sc : Bool)
    (mode : TerminationMode) (pops : Nat) (pushed : List QueueEntry)
    (f : OutputFile) (hf : f ∈ export_depth cal it sc mode pops pushed) :
    f.dims = some (if it then
      (cal.color_camera_calibration.resolution_width,
       cal.color_camera_calibration.resolution_height)
    else
      (cal.depth_camera_calibration.resolution_width,
       cal.depth_camera_calibration.resolution_height)) := by
  unfold export_depth at hf
  rw [writtenFiles_eq] at hf
  obtain ⟨e, j, _, rfl⟩ := mem_enumWriteFrom _ _ _ f hf
  cases it <;> rfl

/-- Witness for C10 at a concrete single-entry drained run without
transform: the file dimensions are the depth camera resolution. -/
theorem c10_depth_dims_witness :
    depthFile0 ∈ export_depth cal0 false false TerminationMode.quitKey 0
      [{ buffer := [5], timestamp := 10 }] ∧
    depthFile0.dims = some (if false then
      (cal0.color_camera_calibration.resolution_width,
       cal0.color_camera_calibration.resolution_height)
    else
      (cal0.depth_camera_calibration.resolution_width,
       cal0.depth_camera_calibration.resolution_height)) :=
  ⟨by decide,
   c10_depth_dims cal0 false false TerminationMode.quitKey 0
     [{ buffer := [5], timestamp := 10 }] depthFile0 (by decide)⟩

/-- Drained runs write one file per queued entry. -/
theorem length_writtenFiles_quitKey (write : QueueEntry → Nat → OutputFile)
    (pops : Nat) (pushed : List QueueEntry) :
    (writtenFiles write TerminationMode.quitKey pops pushed).length = pushed.length := by
  rw [writtenFiles_eq]
  simp [dequeuedEntries, length_enumWriteFrom]

/-- The frames the main loop processes form a prefix of the recording. -/
theorem processed_sublist (frames : List Frame) (qa : Option Nat) :
    (processedFrames frames qa).Sublist frames := by
  unfold processedFrames
  cases qa with
  | none => exact List.Sublist.refl frames
  | some k =>
      by_cases hk : k < frames.length
      · simp only [hk, if_true]
        exact List.take_sublist (k + 1) frames
      · simp only [hk, if_false]
        exact List.Sublist.refl frames

/-- C9: whenever initialize_parameter succeeds, the stored encode quality
is the supplied value clamped into [0, 100] by min(max(0, q), 100), with
95 when the flag is absent; in particular it always lies in [0, 100]. -/
theorem c9_quality_clamped (a : Args) (cfg : Config)
    (h : initialize_parameter a = ParamResult.ok cfg) :
    cfg.quality = min (max 0 ((a.quality).getD 95)) 100 ∧
    0 ≤ cfg.quality ∧ cfg.quality ≤ 100 := by
  unfold initialize_parameter at h
  by_cases h1 : a.help
  · simp [h1] at h
  · by_cases h2 : a.parse_ok = false
    · simp [h1, h2] at h
    · cases hi : a.input with
      | none => simp [h1, h2, hi] at h
      | some p =>
          by_cases h3 : p.is_regular_file = false ∨ p.extension ≠ ".mkv"
          · rw [if_neg h1, if_neg h2, hi] at h
            dsimp only at h
            rw [if_pos h3] at h
            cases h
          · rw [if_neg h1, if_neg h2, hi] at h
            dsimp only at h
            rw [if_neg h3] at h
            cases h
            cases hq : a.quality with
            | none =>
                dsimp only
                exact ⟨by decide, by decide, by decide⟩
            | some v =>
                dsimp only
                exact ⟨rfl, le_min (le_max_left 0 v) (by norm_num), min_le_right _ _⟩

/-- Witness for C9 at quality 150: the stored quality is clamped to 100. -/
theorem c9_quality_clamped_witness :
    initialize_parameter args150 = ParamResult.ok cfg150 ∧
    (cfg150.quality = min (max 0 ((args150.quality).getD 95)) 100 ∧
     0 ≤ cfg150.quality ∧ cfg150.quality ≤ 100) ∧
    cfg150.quality = 100 :=
  ⟨rfl, c9_quality_clamped args150 cfg150 rfl, rfl⟩

/-- C4 counterexample: transform enabled, one frame with a present depth
sub-image, and a transform producing no output on it; the run ends via
the quit key, so the queue is fully drained.  The claim predicts
1 − 1 = 0 depth files, but one file is written: the empty transform
result was queued and exported. -/
theorem c4_counterexample :
    (systemRun tracksDepthOnly cal0 cfgTransform emptyTransform [frameDepth1]
      (some 0) 0 0 0).depthFiles.length = 1 ∧
    emptyTransform [5] = [] :=
  ⟨by decide, rfl⟩

/-- C4 amended: for runs terminating via the quit key (so finalize drains
the queues), the number of files written for each enabled modality
equals the number of processed frames whose capture contained a present
sub-image for that modality.  No frames are subtracted when the depth
transform is enabled: the transform result is queued for every present
depth sub-image, even when it is empty.  (On end-of-stream termination
the counts can be lower: std::exit skips the drain, see C1.) -/
theorem c4_amended (tracks : Tracks) (cal : Calibration) (cfg : Config)
    (transform : List Nat → List Nat) (frames : List Frame) (k : Nat)
    (cp dp ip : Nat) (hk : k < frames.length) :
    (tracks.color = true →
      (systemRun tracks cal cfg transform frames (some k) cp dp ip).colorFiles.length =
        ((frames.take (k + 1)).filter (fun f => (f.color).isSome)).length) ∧
    (tracks.depth = true →
      (systemRun tracks cal cfg transform frames (some k) cp dp ip).depthFiles.length =
        ((frames.take (k + 1)).filter (fun f => (f.depth).isSome)).length) ∧
    (tracks.ir = true →
      (systemRun tracks cal cfg transform frames (some k) cp dp ip).infraredFiles.length =
        ((frames.take (k + 1)).filter (fun f => (f.ir).isSome)).length) := by
  have hmode : terminationMode frames.length (some k) = TerminationMode.quitKey := by
    simp [terminationMode, hk]
  have hproc : processedFrames frames (some k) = frames.take (k + 1) := by
    simp [processedFrames, hk]
  refine ⟨?_, ?_, ?_⟩ <;> intro ht
  · have hout : (systemRun tracks cal cfg transform frames (some k) cp dp ip).colorFiles =
        export_color (terminationMode frames.length (some k)) cp
          ((pushedQueues tracks cfg.is_transform transform
            (processedFrames frames (some k))).color) := by
      simp [systemRun, ht]
    rw [hout, hmode, hproc, pushedQueues_color, ht]
    unfold export_color
    rw [length_writtenFiles_quitKey]
    simp only [if_true]
    unfold presentColor
    exact length_filterMap_isSome (·.color) (frames.take (k + 1))
  · have hout : (systemRun tracks cal cfg transform frames (some k) cp dp ip).depthFiles =
        export_depth cal cfg.is_transform cfg.is_scaling
          (terminationMode frames.length (some k)) dp
          ((pushedQueues tracks cfg.is_transform transform
            (processedFrames frames (some k))).depth) := by
      simp [systemRun, ht]
    rw [hout, hmode, hproc, pushedQueues_depth, ht]
    unfold export_depth
    rw [length_writtenFiles_quitKey]
    simp only [if_true]
    have hlen : (if cfg.is_transform then
        (presentDepth (frames.take (k + 1))).map
          (fun e => ⟨transform e.buffer, e.timestamp⟩)
      else presentDepth (frames.take (k + 1))).length =
        (presentDepth (frames.take (k + 1))).length := by
      cases cfg.is_transform <;> simp
    rw [hlen]
    unfold presentDepth
    exact length_filterMap_isSome (·.depth) (frames.take (k + 1))
  · have hout : (systemRun tracks cal cfg transform frames (some k) cp dp ip).infraredFiles =
        export_infrared cal cfg.quality (terminationMode frames.length (some k)) ip
          ((pushedQueues tracks cfg.is_transform transform
            (processedFrames frames (some k))).infrared) := by
      simp [systemRun, ht]
    rw [hout, hmode, hproc, pushedQueues_infrared, ht]
    unfold export_infrared
    rw [length_writtenFiles_quitKey]
    simp only [if_true]
    unfold presentInfrared
    exact length_filterMap_isSome (·.ir) (frames.take (k + 1))

/-- Witness for C4 amended: one depth frame, quit after it, drained run —
exactly one depth file for one present depth sub-image. -/
theorem c4_amended_witness :
    0 < [frameDepth1].length ∧
    (systemRun tracksDepthOnly cal0 cfg0 (fun b => b) [frameDepth1]
      (some 0) 0 0 0).depthFiles.length =
      (([frameDepth1].take 1).filter (fun f => (f.depth).isSome)).length :=
  ⟨by decide,
   (c4_amended tracksDepthOnly cal0 cfg0 (fun b => b) [frameDepth1] 0 0 0 0
     (by decide)).2.1 rfl⟩

/-- Ordering of the output of one exporter: sequence numbers count up from 0
one per write, and written timestamps are non-decreasing whenever the
queue was filled in non-decreasing timestamp order (the queue is FIFO
with one producer, and the consumer removes a prefix). -/
theorem order_of_writtenFiles (write : QueueEntry → Nat → OutputFile)
    (hseq : ∀ e i, (write e i).seq = i)
    (hts : ∀ e i, (write e i).timestamp = e.timestamp)
    (mode : TerminationMode) (pops : Nat)
    (pushed source : List QueueEntry)
    (hsub : (pushed.map (·.timestamp)).Sublist (source.map (·.timestamp)))
    (hsrc : (source.map (·.timestamp)).Pairwise (· ≤ ·)) :
    seqsOf (writtenFiles write mode pops pushed) =
      List.range (writtenFiles write mode pops pushed).length ∧
    (seqsOf (writtenFiles write mode pops pushed)).Pairwise (· < ·) ∧
    (timestampsOf (writtenFiles write mode pops pushed)).Pairwise (· ≤ ·) := by
  rw [writtenFiles_eq]
  unfold seqsOf timestampsOf
  have hlen := length_enumWriteFrom write (dequeuedEntries mode pops pushed) 0
  have hseqs := seqs_enumWriteFrom write hseq (dequeuedEntries mode pops pushed) 0
  have htsm := map_enumWriteFrom write (·.timestamp) (·.timestamp) hts
    (dequeuedEntries mode pops pushed) 0
  have hdsub : ((dequeuedEntries mode pops pushed).map (·.timestamp)).Sublist
      (pushed.map (·.timestamp)) := by
    cases mode with
    | quitKey => exact List.Sublist.refl _
    | eof => exact List.Sublist.map _ (List.take_sublist pops pushed)
  refine ⟨?_, ?_, ?_⟩
  · rw [hseqs, hlen, ← List.range_eq_range']
  · rw [hseqs, ← List.range_eq_range']
    exact List.pairwise_lt_range _
  · rw [htsm]
    exact List.Pairwise.sublist (hdsub.trans hsub) hsrc

/-- C5: within each modality the files are written in source emission
order — the sequence numbers are 0, 1, 2, ... (strictly increasing,
one increment per write) and the timestamps are non-decreasing in the
order written, for any termination mode and exporter schedule, given
that the source emits the sub-images of each modality with non-decreasing
device timestamps. -/
theorem c5_output_order (tracks : Tracks) (cal : Calibration) (cfg : Config)
    (transform : List Nat → List Nat) (frames : List Frame)
    (quitAfter : Option Nat) (cp dp ip : Nat)
    (hc : ((presentColor frames).map (·.timestamp)).Pairwise (· ≤ ·))
    (hd : ((presentDepth frames).map (·.timestamp)).Pairwise (· ≤ ·))
    (hi : ((presentInfrared frames).map (·.timestamp)).Pairwise (· ≤ ·)) :
    (seqsOf (systemRun tracks cal cfg transform frames quitAfter cp dp ip).colorFiles =
       List.range (systemRun tracks cal cfg transform frames quitAfter cp dp ip).colorFiles.length ∧
     (seqsOf (systemRun tracks cal cfg transform frames quitAfter cp dp ip).colorFiles).Pairwise (· < ·) ∧
     (timestampsOf (systemRun tracks cal cfg transform frames quitAfter cp dp ip).colorFiles).Pairwise (· ≤ ·)) ∧
    (seqsOf (systemRun tracks cal cfg transform frames quitAfter cp dp ip).depthFiles =
       List.range (systemRun tracks cal cfg transform frames quitAfter cp dp ip).depthFiles.length ∧
     (seqsOf (systemRun tracks cal cfg transform frames quitAfter cp dp ip).depthFiles).Pairwise (· < ·) ∧
     (timestampsOf (systemRun tracks cal cfg transform frames quitAfter cp dp ip).depthFiles).Pairwise (· ≤ ·)) ∧
    (seqsOf (systemRun tracks cal cfg transform frames quitAfter cp dp ip).infraredFiles =
       List.range (systemRun tracks cal cfg transform frames quitAfter cp dp ip).infraredFiles.length ∧
     (seqsOf (systemRun tracks cal cfg transform frames quitAfter cp dp ip).infraredFiles).Pairwise (· < ·) ∧
     (timestampsOf (systemRun tracks cal cfg transform frames quitAfter cp dp ip).infraredFiles).Pairwise (· ≤ ·)) := by
  have hout_c : (systemRun tracks cal cfg transform frames quitAfter cp dp ip).colorFiles =
      if tracks.color then
        export_color (terminationMode frames.length quitAfter) cp
          ((pushedQueues tracks cfg.is_transform transform
            (processedFrames frames quitAfter)).color)
      else [] := rfl
  have hout_d : (systemRun tracks cal cfg transform frames quitAfter cp dp ip).depthFiles =
      if tracks.depth then
        export_depth cal cfg.is_transform cfg.is_scaling
          (terminationMode frames.length quitAfter) dp
          ((pushedQueues tracks cfg.is_transform transform
            (processedFrames frames quitAfter)).depth)
      else [] := rfl
  have hout_i : (systemRun tracks cal cfg transform frames quitAfter cp dp ip).infraredFiles =
      if tracks.ir then
        export_infrared cal cfg.quality (terminationMode frames.length quitAfter) ip
          ((pushedQueues tracks cfg.is_transform transform
            (processedFrames frames quitAfter)).infrared)
      else [] := rfl
  refine ⟨?_, ?_, ?_⟩
  · rw [hout_c]
    by_cases htc : tracks.color = true
    · rw [if_pos htc, pushedQueues_color, if_pos htc]
      unfold export_color
      refine order_of_writtenFiles _ (fun e i => ?_) (fun e i => ?_) _ cp
        (presentColor (processedFrames frames quitAfter)) (presentColor frames)
        (List.Sublist.map _ (List.Sublist.filterMap _ (processed_sublist frames quitAfter)))
        hc <;> rfl
    · rw [if_neg htc]
      exact ⟨by simp [seqsOf], by simp [seqsOf], by simp [timestampsOf]⟩
  · rw [hout_d]
    by_cases htd : tracks.depth = true
    · rw [if_pos htd, pushedQueues_depth, if_pos htd]
      by_cases hit : cfg.is_transform = true
      · rw [if_pos hit]
        unfold export_depth
        refine order_of_writtenFiles _ (fun e i => ?_) (fun e i => ?_) _ dp
          ((presentDepth (processedFrames frames quitAfter)).map
            (fun e => ⟨transform e.buffer, e.timestamp⟩))
          (presentDepth frames) ?_ hd
        · rfl
        · rfl
        · rw [List.map_map]
          exact List.Sublist.map _ (List.Sublist.filterMap _ (processed_sublist frames quitAfter))
      · rw [if_neg hit]
        unfold export_depth
        refine order_of_writtenFiles _ (fun e i => ?_) (fun e i => ?_) _ dp
          (presentDepth (processedFrames frames quitAfter)) (presentDepth frames)
          (List.Sublist.map _ (List.Sublist.filterMap _ (processed_sublist frames quitAfter)))
          hd <;> rfl
    · rw [if_neg htd]
      exact ⟨by simp [seqsOf], by simp [seqsOf], by simp [timestampsOf]⟩
  · rw [hout_i]
    by_cases hti : tracks.ir = true
    · rw [if_pos hti, pushedQueues_infrared, if_pos hti]
      unfold export_infrared
      refine order_of_writtenFiles _ (fun e i => ?_) (fun e i => ?_) _ ip
        (presentInfrared (processedFrames frames quitAfter)) (presentInfrared frames)
        (List.Sublist.map _ (List.Sublist.filterMap _ (processed_sublist frames quitAfter)))
        hi <;> rfl
    · rw [if_neg hti]
      exact ⟨by simp [seqsOf], by simp [seqsOf], by simp [timestampsOf]⟩

/-- Witness for C5 at a concrete two-frame color recording with
timestamps 5 then 7, terminated by the quit key after the second
frame. -/
theorem c5_output_order_witness :
    ((presentColor frames57).map (·.timestamp)).Pairwise (· ≤ ·) ∧
    ((presentDepth frames57).map (·.timestamp)).Pairwise (· ≤ ·) ∧
    ((presentInfrared frames57).map (·.timestamp)).Pairwise (· ≤ ·) ∧
    (seqsOf (systemRun tracksColorOnly cal0 cfg0 (fun b => b) frames57 (some 1) 0 0 0).colorFiles =
       List.range (systemRun tracksColorOnly cal0 cfg0 (fun b => b) frames57 (some 1) 0 0 0).colorFiles.length ∧
     (seqsOf (systemRun tracksColorOnly cal0 cfg0 (fun b => b) frames57 (some 1) 0 0 0).colorFiles).Pairwise (· < ·) ∧
     (timestampsOf (systemRun tracksColorOnly cal0 cfg0 (fun b => b) frames57 (some 1) 0 0 0).colorFiles).Pairwise (· ≤ ·)) :=
  ⟨by decide, by decide, by decide,
   (c5_output_order tracksColorOnly cal0 cfg0 (fun b => b) frames57 (some 1) 0 0 0
     (by decide) (by decide) (by decide)).1⟩
